import Mathlib

/-!
Verification of the boxel-Editer voxel engine core.

The definitions below are a shallow embedding of the TypeScript sources:
the voxel store (`VoxelMesh`), the undo/redo command log (`ActionHistory`)
and the project-file / interchange-export logic (`FileManager`).  Pure
functions become Lean functions; the mutable classes become explicit state
passing on structures; JavaScript `Map`s become association lists with
first-match lookup; fallible operations return `Option` or pair their
result with the (possibly unchanged) state.  Integer grid coordinates are
modelled with `Int`; the sentinel infinities of the default grid bounds are
modelled with `Option Int` (where `none` means the corresponding comparison
against plus or minus infinity is always false).
-/

namespace Boxel

/-! ### Decimal representation facts

The source encodes counters into identifier strings (`voxel_3`, `v_17`,
`face_2`) via JavaScript template interpolation, which is `Nat.repr` in the
embedding.  Freshness of generated identifiers needs injectivity of
`Nat.repr`, proved here from first principles via a digit-value round trip.
-/

/-- Numeric value of a decimal digit character. -/
def digitVal (ch : Char) : Nat := ch.toNat - 48

/-- Decimal value of a big-endian digit-character list. -/
def digitsVal (l : List Char) : Nat := l.foldl (fun a ch => 10 * a + digitVal ch) 0

theorem digitVal_digitChar (d : Nat) (h : d < 10) : digitVal (Nat.digitChar d) = d := by
  interval_cases d <;> rfl

theorem toDigitsCore_acc (fuel : Nat) : ∀ (n : Nat) (acc : List Char),
    Nat.toDigitsCore 10 fuel n acc = Nat.toDigitsCore 10 fuel n [] ++ acc := by
  induction fuel with
  | zero => intro n acc; simp [Nat.toDigitsCore]
  | succ fuel ih =>
    intro n acc
    simp only [Nat.toDigitsCore]
    by_cases h : n / 10 = 0
    · simp [h]
    · simp only [h, if_false]
      rw [ih (n / 10) (Nat.digitChar (n % 10) :: acc), ih (n / 10) [Nat.digitChar (n % 10)]]
      simp

theorem toDigitsCore_fuel (n : Nat) : ∀ (f : Nat) (acc : List Char), n < f →
    Nat.toDigitsCore 10 f n acc = Nat.toDigitsCore 10 (n + 1) n acc := by
  induction n using Nat.strong_induction_on with
  | _ n ih =>
    intro f acc hf
    match f with
    | f + 1 =>
      simp only [Nat.toDigitsCore]
      by_cases h : n / 10 = 0
      · simp [h]
      · simp only [h, if_false]
        have hn10 : n / 10 < n := Nat.div_lt_self (by omega) (by omega)
        rw [ih (n / 10) hn10 f (Nat.digitChar (n % 10) :: acc) (by omega),
          ih (n / 10) hn10 n (Nat.digitChar (n % 10) :: acc) (by omega)]

theorem toDigits_step (n : Nat) (h : ¬ n / 10 = 0) :
    Nat.toDigits 10 n = Nat.toDigits 10 (n / 10) ++ [Nat.digitChar (n % 10)] := by
  show Nat.toDigitsCore 10 (n + 1) n [] = _
  simp only [Nat.toDigitsCore, h, if_false]
  have hn10 : n / 10 < n := Nat.div_lt_self (by omega) (by omega)
  rw [toDigitsCore_fuel (n / 10) n [Nat.digitChar (n % 10)] (by omega),
    toDigitsCore_acc (n / 10 + 1) (n / 10) [Nat.digitChar (n % 10)]]
  rfl

theorem toDigits_small (n : Nat) (h : n / 10 = 0) :
    Nat.toDigits 10 n = [Nat.digitChar (n % 10)] := by
  show Nat.toDigitsCore 10 (n + 1) n [] = _
  simp [Nat.toDigitsCore, h]

theorem digitsVal_toDigits (n : Nat) : digitsVal (Nat.toDigits 10 n) = n := by
  induction n using Nat.strong_induction_on with
  | _ n ih =>
    by_cases h : n / 10 = 0
    · rw [toDigits_small n h]
      have hlt : n % 10 < 10 := Nat.mod_lt _ (by omega)
      simp only [digitsVal, List.foldl_cons, List.foldl_nil]
      rw [digitVal_digitChar _ hlt]
      omega
    · rw [toDigits_step n h]
      have hn10 : n / 10 < n := Nat.div_lt_self (by omega) (by omega)
      have hlt : n % 10 < 10 := Nat.mod_lt _ (by omega)
      simp only [digitsVal, List.foldl_append, List.foldl_cons, List.foldl_nil]
      have := ih (n / 10) hn10
      simp only [digitsVal] at this
      rw [this, digitVal_digitChar _ hlt]
      omega

theorem natRepr_data (n : Nat) : (Nat.repr n).data = Nat.toDigits 10 n := rfl

theorem natRepr_injective : Function.Injective Nat.repr := by
  intro a b h
  have hd : Nat.toDigits 10 a = Nat.toDigits 10 b := by
    rw [← natRepr_data, ← natRepr_data, h]
  have := congrArg digitsVal hd
  rwa [digitsVal_toDigits, digitsVal_toDigits] at this

/-- Identifier built from a fixed title and a counter, as produced by the
template interpolation in the source. -/
def mkId (title : String) (k : Nat) : String := title ++ Nat.repr k

theorem mkId_inj (title : String) {a b : Nat} (h : mkId title a = mkId title b) : a = b := by
  apply natRepr_injective
  have hdata := congrArg String.data h
  simp only [mkId, String.data_append] at hdata
  have := List.append_cancel_left hdata
  have hstr : Nat.repr a = Nat.repr b := by
    cases ha : Nat.repr a
    cases hb : Nat.repr b
    simp_all
  exact hstr

theorem mkId_ne (title : String) {a b : Nat} (h : a ≠ b) : mkId title a ≠ mkId title b :=
  fun hc => h (mkId_inj title hc)

/-! ### Data model

Shallow embedding of the record types in `types/index.ts`.
-/

/-- Integer 3D grid position (`Vector3` in the source). -/
structure Vector3 where
  x : Int
  y : Int
  z : Int
deriving DecidableEq, Repr

/-- A voxel corner vertex (`Vertex` in the source; the optional normal field
is never set by the store and is omitted). -/
structure Vertex where
  id : String
  x : Int
  y : Int
  z : Int
deriving DecidableEq, Repr

/-- One of a voxel's six quads (`Face` in the source).  The source declares
`color` optional but every constructed face carries a color; the empty
string stands for the absent/falsy cases of the JavaScript value. -/
structure Face where
  id : String
  vertexIds : List String
  normal : String
  color : String
deriving DecidableEq, Repr

/-- A unit cube of the model (`Voxel` in the source). -/
structure Voxel where
  id : String
  position : Vector3
  vertices : List Vertex
  faces : List Face
deriving DecidableEq, Repr

/-- Capture of a deleted voxel (`VoxelSnapshot` in the source); `colors` is
the face-id-keyed color dictionary. -/
structure VoxelSnapshot where
  position : Vector3
  vertices : List Vertex
  faces : List Face
  colors : List (String × String)
deriving DecidableEq, Repr

/-! ### Association-list model of JavaScript Map / plain-object dictionaries -/

/-- First-match lookup, the embedding of `Map.get` / property access. -/
def mapGet {α : Type} (m : List (String × α)) (k : String) : Option α :=
  (m.find? (fun e => e.1 = k)).map (·.2)

/-- Embedding of `Map.set` / property assignment: replace the first entry
with this key, else append. -/
def mapSet {α : Type} : List (String × α) → String → α → List (String × α)
  | [], k, v => [(k, v)]
  | e :: rest, k, v => if e.1 = k then (k, v) :: rest else e :: mapSet rest k v

/-- Embedding of `Map.delete`: remove the first entry with this key. -/
def mapDelete {α : Type} : List (String × α) → String → List (String × α)
  | [], _ => []
  | e :: rest, k => if e.1 = k then rest else e :: mapDelete rest k

theorem mapGet_mapSet_self {α : Type} (m : List (String × α)) (k : String) (v : α) :
    mapGet (mapSet m k v) k = some v := by
  induction m with
  | nil => simp [mapGet, mapSet, List.find?]
  | cons e rest ih =>
    by_cases h : e.1 = k
    · simp [mapGet, mapSet, h, List.find?]
    · simp only [mapSet, h, if_false]
      simpa [mapGet, List.find?, h] using ih

theorem mapGet_mapSet_other {α : Type} (m : List (String × α)) (k k' : String) (v : α)
    (h : k' ≠ k) : mapGet (mapSet m k v) k' = mapGet m k' := by
  induction m with
  | nil => simp [mapGet, mapSet, List.find?, Ne.symm h]
  | cons e rest ih =>
    by_cases he : e.1 = k
    · simp [mapGet, mapSet, he, List.find?, Ne.symm h]
    · simp only [mapSet, he, if_false]
      by_cases he' : e.1 = k'
      · simp [mapGet, List.find?, he']
      · simpa [mapGet, List.find?, he'] using ih

theorem mapGet_mapDelete_other {α : Type} (m : List (String × α)) (k k' : String)
    (h : k' ≠ k) : mapGet (mapDelete m k) k' = mapGet m k' := by
  induction m with
  | nil => simp [mapGet, mapDelete]
  | cons e rest ih =>
    by_cases he : e.1 = k
    · have hne : ¬ e.1 = k' := by rw [he]; exact Ne.symm h
      simp [mapGet, mapDelete, List.find?, he, hne, Ne.symm h]
    · simp only [mapDelete, he, if_false]
      by_cases he' : e.1 = k'
      · simp [mapGet, List.find?, he']
      · simpa [mapGet, List.find?, he'] using ih

theorem mapSet_append_of_not_mem {α : Type} (m : List (String × α)) (k : String) (v : α)
    (h : ∀ e ∈ m, e.1 ≠ k) : mapSet m k v = m ++ [(k, v)] := by
  induction m with
  | nil => rfl
  | cons e rest ih =>
    have hek : e.1 ≠ k := h e (by simp)
    simp only [mapSet, hek, if_false, List.cons_append, List.cons.injEq, true_and]
    exact ih (fun e' he' => h e' (by simp [he']))

/-! ### VoxelMesh store

Embedding of `VoxelMesh.ts`.  The six bound fields default to minus/plus
infinity in the source; `none` models the infinite sentinel, for which the
out-of-bounds comparisons are always false.
-/

/-- Mutable state of a `VoxelMesh` instance. -/
structure VoxelMesh where
  voxels : List (String × Voxel)
  colorMap : List (String × String)
  vertexIdCounter : Nat
  voxelIdCounter : Nat
  minX : Option Int
  maxX : Option Int
  minY : Option Int
  maxY : Option Int
  minZ : Option Int
  maxZ : Option Int
deriving DecidableEq, Repr

/-- State of a freshly constructed `VoxelMesh` (the constructor ignores its
grid-size arguments and starts with an empty grid and infinite bounds). -/
def VoxelMesh.init : VoxelMesh :=
  { voxels := [], colorMap := [], vertexIdCounter := 0, voxelIdCounter := 0,
    minX := none, maxX := none, minY := none, maxY := none, minZ := none, maxZ := none }

/-- Embedding of `setGridBounds` (the source defaults `minZ` to 0 and `maxZ`
to positive infinity; callers here pass all six explicitly). -/
def VoxelMesh.setGridBounds (s : VoxelMesh) (minX maxX minY maxY : Int)
    (minZ : Int) (maxZ : Option Int) : VoxelMesh :=
  { s with minX := some minX, maxX := some maxX, minY := some minY,
           maxY := some maxY, minZ := some minZ, maxZ := maxZ }

/-- Comparison `x < bound` where the bound may be minus infinity (`none`). -/
def ltMin (x : Int) (bound : Option Int) : Bool :=
  match bound with
  | none => false
  | some v => x < v

/-- Comparison `bound ≤ x` where the bound may be plus infinity (`none`). -/
def geMax (x : Int) (bound : Option Int) : Bool :=
  match bound with
  | none => false
  | some v => v ≤ x

/-- Out-of-bounds test of `addVoxel` (half-open ranges, per the source). -/
def VoxelMesh.outOfBounds (s : VoxelMesh) (position : Vector3) : Bool :=
  ltMin position.x s.minX || geMax position.x s.maxX ||
  ltMin position.y s.minY || geMax position.y s.maxY ||
  ltMin position.z s.minZ || geMax position.z s.maxZ

/-- Duplicate-position scan of `addVoxel` over all live voxels. -/
def VoxelMesh.occupied (s : VoxelMesh) (position : Vector3) : Bool :=
  s.voxels.any (fun e => e.2.position == position)

/-- Voxel identifier `voxel_<k>`. -/
def mkVoxelId (k : Nat) : String := mkId "voxel_" k

/-- Vertex identifier `v_<k>`. -/
def mkVertexId (k : Nat) : String := mkId "v_" k

/-- The eight corner offsets of `createVertices`, in source order v0..v7. -/
def cornerOffsets : List (Int × Int × Int) :=
  [(0, 1, 0), (1, 1, 0), (0, 0, 0), (1, 0, 0), (0, 1, 1), (1, 1, 1), (0, 0, 1), (1, 0, 1)]

/-- Embedding of `createVertices`: eight vertices with consecutive ids drawn
from the vertex counter `c`. -/
def createVertices (c : Nat) (position : Vector3) : List Vertex :=
  (List.range 8).map (fun i =>
    let off := cornerOffsets.getD i (0, 0, 0)
    { id := mkVertexId (c + i), x := position.x + off.1,
      y := position.y + off.2.1, z := position.z + off.2.2 })

/-- The six face definitions of `createFaces` in source order: canonical
name, corner indices, normal tag.  The canonical name is declared but not
used for the face identifier, which is `face_<index>`. -/
def faceDefinitions : List (String × List Nat × String) :=
  [("top", [0, 1, 5, 4], "y+"),
   ("bottom", [2, 3, 7, 6], "y-"),
   ("front", [0, 1, 3, 2], "z-"),
   ("back", [4, 5, 7, 6], "z+"),
   ("left", [0, 2, 6, 4], "x-"),
   ("right", [1, 3, 7, 5], "x+")]

/-- Embedding of `createFaces`: six faces with identifier `face_<index>`,
vertex-id lists taken from the corner indices, and default color. -/
def createFaces (vertices : List Vertex) : List Face :=
  (List.range 6).map (fun index =>
    let fd := faceDefinitions.getD index ("", [], "")
    { id := mkId "face_" index,
      vertexIds := fd.2.1.map (fun i => ((vertices.getD i ⟨"", 0, 0, 0⟩).id)),
      normal := fd.2.2,
      color := "#808080" })

/-- Embedding of `createVoxel`: allocate a fresh voxel id, build vertices
and faces, store the voxel. -/
def VoxelMesh.createVoxel (s : VoxelMesh) (position : Vector3) : Voxel × VoxelMesh :=
  let voxelId := mkVoxelId s.voxelIdCounter
  let vertices := createVertices s.vertexIdCounter position
  let faces := createFaces vertices
  let voxel : Voxel := { id := voxelId, position := position, vertices := vertices, faces := faces }
  (voxel, { s with voxelIdCounter := s.voxelIdCounter + 1,
                   vertexIdCounter := s.vertexIdCounter + 8,
                   voxels := mapSet s.voxels voxelId voxel })

/-- Embedding of `addVoxel`: bounds check, duplicate-position check, then
`createVoxel`; on rejection the state is returned untouched. -/
def VoxelMesh.addVoxel (s : VoxelMesh) (position : Vector3) : Option Voxel × VoxelMesh :=
  if s.outOfBounds position then (none, s)
  else if s.occupied position then (none, s)
  else
    let r := s.createVoxel position
    (some r.1, r.2)

/-- Position offset applied by the normal switch of `addVoxelAtFaceId`; an
unrecognized tag falls through and leaves the position unchanged. -/
def normalDelta (normal : String) (position : Vector3) : Vector3 :=
  if normal = "x+" then { position with x := position.x + 1 }
  else if normal = "x-" then { position with x := position.x - 1 }
  else if normal = "y+" then { position with y := position.y + 1 }
  else if normal = "y-" then { position with y := position.y - 1 }
  else if normal = "z+" then { position with z := position.z + 1 }
  else if normal = "z-" then { position with z := position.z - 1 }
  else position

/-- Embedding of `addVoxelAtFaceId`: resolve voxel and face, offset the
position along the face normal, delegate to `addVoxel`. -/
def VoxelMesh.addVoxelAtFaceId (s : VoxelMesh) (voxelId faceId : String) :
    Option Voxel × VoxelMesh :=
  match mapGet s.voxels voxelId with
  | none => (none, s)
  | some sourceVoxel =>
    match sourceVoxel.faces.find? (fun f => f.id == faceId) with
    | none => (none, s)
    | some face => s.addVoxel (normalDelta face.normal sourceVoxel.position)

/-- Composite color-map key `<voxelId>_<faceId>`. -/
def colorKey (voxelId faceId : String) : String := voxelId ++ "_" ++ faceId

/-- Embedding of `deleteVoxel`: snapshot position, vertices, faces and the
color-map entries under the voxel's faces, then remove the voxel and those
entries. -/
def VoxelMesh.deleteVoxel (s : VoxelMesh) (voxelId : String) :
    Option VoxelSnapshot × VoxelMesh :=
  match mapGet s.voxels voxelId with
  | none => (none, s)
  | some voxel =>
    let colors := voxel.faces.foldl (fun acc face =>
      match mapGet s.colorMap (colorKey voxelId face.id) with
      | some c => mapSet acc face.id c
      | none => acc) []
    let snapshot : VoxelSnapshot :=
      { position := voxel.position, vertices := voxel.vertices,
        faces := voxel.faces, colors := colors }
    let colorMap' := voxel.faces.foldl (fun m face => mapDelete m (colorKey voxelId face.id))
      s.colorMap
    (some snapshot, { s with voxels := mapDelete s.voxels voxelId, colorMap := colorMap' })

/-- Embedding of `restoreVoxel`: reject when the id is live, otherwise
reinstate the snapshot verbatim, re-populating the color map and each
face's cached color from the snapshot colors (a falsy — absent or empty —
snapshot color is skipped, per JavaScript truthiness). -/
def VoxelMesh.restoreVoxel (s : VoxelMesh) (voxelId : String) (snapshot : VoxelSnapshot) :
    Bool × VoxelMesh :=
  if (mapGet s.voxels voxelId).isSome then (false, s)
  else
    let faces' := snapshot.faces.map (fun face =>
      match mapGet snapshot.colors face.id with
      | some c => if c = "" then face else { face with color := c }
      | none => face)
    let voxel : Voxel := { id := voxelId, position := snapshot.position,
                           vertices := snapshot.vertices, faces := faces' }
    let colorMap' := snapshot.faces.foldl (fun m face =>
      match mapGet snapshot.colors face.id with
      | some c => if c = "" then m else mapSet m (colorKey voxelId face.id) c
      | none => m) s.colorMap
    (true, { s with voxels := mapSet s.voxels voxelId voxel, colorMap := colorMap' })

/-- In-place update of the first face carrying this id, as the mutation of
the found face object in `colorSpecificFace`. -/
def setFaceColor : List Face → String → String → List Face
  | [], _, _ => []
  | f :: rest, faceId, color =>
    if f.id = faceId then { f with color := color } :: rest
    else f :: setFaceColor rest faceId color

/-- Embedding of `colorSpecificFace`: set the color-map entry and the cached
face color. -/
def VoxelMesh.colorSpecificFace (s : VoxelMesh) (voxelId faceId color : String) :
    Bool × VoxelMesh :=
  match mapGet s.voxels voxelId with
  | none => (false, s)
  | some voxel =>
    match voxel.faces.find? (fun f => f.id == faceId) with
    | none => (false, s)
    | some _ =>
      let voxel' := { voxel with faces := setFaceColor voxel.faces faceId color }
      (true, { s with voxels := mapSet s.voxels voxelId voxel',
                      colorMap := mapSet s.colorMap (colorKey voxelId faceId) color })

/-- Embedding of `clear`: drop everything, reset both id counters. -/
def VoxelMesh.clear (s : VoxelMesh) : VoxelMesh :=
  { s with voxels := [], colorMap := [], vertexIdCounter := 0, voxelIdCounter := 0 }

/-- Embedding of `getVoxelCount`. -/
def VoxelMesh.getVoxelCount (s : VoxelMesh) : Nat := s.voxels.length

/-! ### ActionHistory

Embedding of `ActionHistory.ts`.  The action payload type is a parameter
(the source stores an open `ActionData` bag); the wall-clock timestamp is an
explicit argument instead of a call to `Date`.  The arrays are lists whose
last element is the stack top (`push`/`pop` act on the end, eviction
`shift`s the front), mirroring the source arrays.
-/

/-- An undo/redo command record (`Action` in the source). -/
structure Action (ActionData : Type) where
  id : String
  type : String
  timestamp : String
  description : String
  data : ActionData
  targetObject : String
deriving DecidableEq, Repr

/-- Mutable state of an `ActionHistory` instance. -/
structure ActionHistory (ActionData : Type) where
  undoStack : List (Action ActionData)
  redoStack : List (Action ActionData)
  actionIdCounter : Nat
deriving DecidableEq, Repr

/-- The read-only stack cap of the source, fixed at construction. -/
def maxStackSize : Nat := 1000

/-- Initial (empty) history. -/
def ActionHistory.init (ActionData : Type) : ActionHistory ActionData :=
  { undoStack := [], redoStack := [], actionIdCounter := 0 }

/-- Arguments of one `pushAction` call (type, data, description, target
object, timestamp). -/
structure PushArgs (ActionData : Type) where
  type : String
  data : ActionData
  description : String
  targetObject : String
  timestamp : String
deriving DecidableEq, Repr

/-- Embedding of `pushAction`: mint the action, clear the redo stack,
append to the undo stack, evict the oldest entry past the cap. -/
def ActionHistory.pushAction {ActionData : Type} (h : ActionHistory ActionData)
    (args : PushArgs ActionData) : ActionHistory ActionData :=
  let action : Action ActionData :=
    { id := mkId "action_" h.actionIdCounter, type := args.type,
      timestamp := args.timestamp, description := args.description,
      data := args.data, targetObject := args.targetObject }
  let undo' := h.undoStack ++ [action]
  { undoStack := if maxStackSize < undo'.length then undo'.drop 1 else undo',
    redoStack := [],
    actionIdCounter := h.actionIdCounter + 1 }

/-- Embedding of `undo`: pop the undo stack onto the redo stack. -/
def ActionHistory.undo {ActionData : Type} (h : ActionHistory ActionData) :
    Option (Action ActionData) × ActionHistory ActionData :=
  match h.undoStack.getLast? with
  | none => (none, h)
  | some action =>
    (some action, { h with undoStack := h.undoStack.dropLast,
                           redoStack := h.redoStack ++ [action] })

/-- Embedding of `redo`: pop the redo stack onto the undo stack. -/
def ActionHistory.redo {ActionData : Type} (h : ActionHistory ActionData) :
    Option (Action ActionData) × ActionHistory ActionData :=
  match h.redoStack.getLast? with
  | none => (none, h)
  | some action =>
    (some action, { h with redoStack := h.redoStack.dropLast,
                           undoStack := h.undoStack ++ [action] })

/-- Embedding of `canUndo`. -/
def ActionHistory.canUndo {ActionData : Type} (h : ActionHistory ActionData) : Bool :=
  0 < h.undoStack.length

/-- Embedding of `canRedo`. -/
def ActionHistory.canRedo {ActionData : Type} (h : ActionHistory ActionData) : Bool :=
  0 < h.redoStack.length

/-- Embedding of `peekUndo`. -/
def ActionHistory.peekUndo {ActionData : Type} (h : ActionHistory ActionData) :
    Option (Action ActionData) :=
  h.undoStack.getLast?

/-- Embedding of `peekRedo`. -/
def ActionHistory.peekRedo {ActionData : Type} (h : ActionHistory ActionData) :
    Option (Action ActionData) :=
  h.redoStack.getLast?

/-- A sequence of `pushAction` calls. -/
def ActionHistory.pushMany {ActionData : Type} (h : ActionHistory ActionData)
    (argsList : List (PushArgs ActionData)) : ActionHistory ActionData :=
  argsList.foldl (fun h args => h.pushAction args) h

/-! ### FileManager: interchange (GLTF) export

Embedding of the pure parts of `FileManager.createGltfStructure` and
`hasAdjacentVoxel` that the claims are about: the internal-face culling
stage, the per-face vertex resolution and the quad triangulation.
-/

/-- Neighbor position probed by `hasAdjacentVoxel`; the switch default
returns false, modelled as `none`. -/
def adjacentCheckPos (pos : Vector3) (normal : String) : Option Vector3 :=
  if normal = "x+" then some ⟨pos.x + 1, pos.y, pos.z⟩
  else if normal = "x-" then some ⟨pos.x - 1, pos.y, pos.z⟩
  else if normal = "y+" then some ⟨pos.x, pos.y + 1, pos.z⟩
  else if normal = "y-" then some ⟨pos.x, pos.y - 1, pos.z⟩
  else if normal = "z+" then some ⟨pos.x, pos.y, pos.z + 1⟩
  else if normal = "z-" then some ⟨pos.x, pos.y, pos.z - 1⟩
  else none

/-- Embedding of `FileManager.hasAdjacentVoxel`. -/
def hasAdjacentVoxel (voxels : List (String × Voxel)) (pos : Vector3) (normal : String) :
    Bool :=
  match adjacentCheckPos pos normal with
  | none => false
  | some checkPos => voxels.any (fun e => e.2.position == checkPos)

/-- The faces that survive the internal-face culling loop of
`createGltfStructure`, paired with their voxel, in iteration order (the
later per-color grouping only regroups these pairs). -/
def exportedFaces (voxels : List (String × Voxel)) : List (Voxel × Face) :=
  (voxels.map (fun e =>
    (e.2.faces.filter (fun face => !hasAdjacentVoxel voxels e.2.position face.normal)).map
      (fun face => (e.2, face)))).flatten

/-- Embedding of `FileManager.normalToVec3` (default `[0, 1, 0]`). -/
def normalToVec3 (normal : String) : Vector3 :=
  if normal = "x+" then ⟨1, 0, 0⟩
  else if normal = "x-" then ⟨-1, 0, 0⟩
  else if normal = "y+" then ⟨0, 1, 0⟩
  else if normal = "y-" then ⟨0, -1, 0⟩
  else if normal = "z+" then ⟨0, 0, 1⟩
  else if normal = "z-" then ⟨0, 0, -1⟩
  else ⟨0, 1, 0⟩

/-- The four face-corner positions resolved by the export loop: each vertex
id looked up in the voxel's vertex list, silently skipping missing ids. -/
def faceVertexPositions (voxel : Voxel) (face : Face) : List Vector3 :=
  face.vertexIds.filterMap (fun vertexId =>
    (voxel.vertices.find? (fun v => v.id == vertexId)).map (fun v => ⟨v.x, v.y, v.z⟩))

/-- Embedding of `normal.endsWith('-')`: the last character is a dash. -/
def endsWithDash (s : String) : Bool := s.data.getLast? == some '-'

/-- Local triangle index order of the export quad triangulation: negative
normals use (0,1,2),(0,2,3), positive normals the reverse. -/
def quadTriangles (isNegativeNormal : Bool) : List (Nat × Nat × Nat) :=
  if isNegativeNormal then [(0, 1, 2), (0, 2, 3)] else [(0, 2, 1), (0, 3, 2)]

/-- Triangles (as corner-position triples) emitted by the export for one
face: the first triangle needs at least 3 resolved corners, the second at
least 4. -/
def faceTriangles (voxel : Voxel) (face : Face) : List (Vector3 × Vector3 × Vector3) :=
  let fv := faceVertexPositions voxel face
  ((quadTriangles (endsWithDash face.normal)).take (fv.length - 2)).map
    (fun t => (fv.getD t.1 ⟨0, 0, 0⟩, fv.getD t.2.1 ⟨0, 0, 0⟩, fv.getD t.2.2 ⟨0, 0, 0⟩))

/-- Vector difference. -/
def vsub (a b : Vector3) : Vector3 := ⟨a.x - b.x, a.y - b.y, a.z - b.z⟩

/-- Cross product. -/
def vcross (a b : Vector3) : Vector3 :=
  ⟨a.y * b.z - a.z * b.y, a.z * b.x - a.x * b.z, a.x * b.y - a.y * b.x⟩

/-- Orientation normal of an emitted triangle: cross product of its first
two edge vectors. -/
def triNormal (t : Vector3 × Vector3 × Vector3) : Vector3 :=
  vcross (vsub t.2.1 t.1) (vsub t.2.2 t.1)

/-! ### FileManager: project document load and migration

Embedding of the pure parts of `loadGlw`, `isVersionCompatible`,
`parseVersion`, `migrateGlwFile` and `validateGlwSchema`.  Optional numeric
fields are `Option Int`; the JavaScript falsy test on them accepts both the
missing value and 0.
-/

/-- Project-file metadata (`GlwMetadata`). -/
structure GlwMetadata where
  version : String
  createdAt : String
  updatedAt : String
  gridSizeX : Int
  gridSizeY : Int
  gridSizeZ : Option Int
  maxGridX : Option Int
  maxGridY : Option Int
  maxGrid : Option Int
deriving DecidableEq, Repr

/-- Main object payload (`GlwMainObject`). -/
structure GlwMainObject where
  gridSizeX : Int
  gridSizeY : Int
  gridSizeZ : Option Int
  voxels : List Voxel
  colors : List (String × String)
deriving DecidableEq, Repr

/-- Adjacent object record (`GlwAdjacentObject`). -/
structure GlwAdjacentObject where
  id : String
  filePath : String
  direction : String
  position : Vector3
  gridSizeX : Int
  gridSizeY : Int
  voxels : List Voxel
  colors : List (String × String)
deriving DecidableEq, Repr

/-- Palette entry (`PaletteColor`; the rgb triple is inlined). -/
structure PaletteColor where
  id : String
  name : String
  hex : String
  r : Int
  g : Int
  b : Int
  custom : Bool
deriving DecidableEq, Repr

/-- Whole project document (`GlwFile`); `adjacentObjects`, `colorPalette`
and `undoRedoHistory` may be absent in serialized documents. -/
structure GlwFile where
  version : String
  metadata : GlwMetadata
  mainObject : GlwMainObject
  adjacentObjects : Option (List GlwAdjacentObject)
  colorPalette : Option (List PaletteColor)
  undoRedoHistory : Option (List (Action String))
deriving DecidableEq, Repr

/-- The `CURRENT_VERSION` constant. -/
def CURRENT_VERSION : String := "1.0.0"

/-- Parsed semantic version triple. -/
structure SemVer where
  major : Nat
  minor : Nat
  patch : Nat
deriving DecidableEq, Repr

/-- Split a character list at every dot (the `split('.')` of the source). -/
def splitDotAux : List Char → List Char → List String
  | [], acc => [String.mk acc.reverse]
  | c :: rest, acc =>
    if c = '.' then String.mk acc.reverse :: splitDotAux rest []
    else splitDotAux rest (c :: acc)

/-- Embedding of `version.split('.')`. -/
def splitOnDot (s : String) : List String := splitDotAux s.data []

/-- Embedding of `parseInt(part, 10)` on a non-negative part: value of the
leading decimal digits, `none` for the NaN case (no leading digit). -/
def parseIntNat (s : String) : Option Nat :=
  let ds := s.data.takeWhile Char.isDigit
  if ds.isEmpty then none else some (digitsVal ds)

/-- Embedding of `parseVersion`: split on dots, each part parsed as a
number with `|| 0` defaulting. -/
def parseVersion (version : String) : SemVer :=
  let parts := splitOnDot version
  { major := (parseIntNat (parts.getD 0 "")).getD 0,
    minor := (parseIntNat (parts.getD 1 "")).getD 0,
    patch := (parseIntNat (parts.getD 2 "")).getD 0 }

/-- Embedding of `isVersionCompatible`: equal major components. -/
def isVersionCompatible (version : String) : Bool :=
  (parseVersion CURRENT_VERSION).major = (parseVersion version).major

/-- JavaScript falsy test on an optional numeric field: absent or zero. -/
def numFalsy (v : Option Int) : Bool :=
  match v with
  | none => true
  | some n => n == 0

/-- Embedding of `migrateGlwFile`: fill missing `adjacentObjects` with `[]`,
falsy `maxGridX`/`maxGridY` with 50, falsy `gridSizeZ` (in metadata and
main object) with the respective `gridSizeY`, then stamp the document with
the current version. -/
def migrateGlwFile (g : GlwFile) : GlwFile :=
  let adjacentObjects := match g.adjacentObjects with
    | none => some []
    | some l => some l
  let metadata := { g.metadata with
    maxGridX := if numFalsy g.metadata.maxGridX then some 50 else g.metadata.maxGridX,
    maxGridY := if numFalsy g.metadata.maxGridY then some 50 else g.metadata.maxGridY,
    gridSizeZ := if numFalsy g.metadata.gridSizeZ then some g.metadata.gridSizeY
                 else g.metadata.gridSizeZ }
  let mainObject := { g.mainObject with
    gridSizeZ := if numFalsy g.mainObject.gridSizeZ then some g.mainObject.gridSizeY
                 else g.mainObject.gridSizeZ }
  { g with adjacentObjects := adjacentObjects, metadata := metadata,
           mainObject := mainObject, version := CURRENT_VERSION }

/-- Embedding of `validateGlwSchema` on a parsed document: the required
top-level fields are non-falsy and the list/dictionary fields well-typed.
On the typed embedding the array/object checks reduce to presence checks;
`version` must be a non-empty (truthy) string. -/
def validateGlwSchema (g : GlwFile) : Bool :=
  g.version ≠ "" && (g.colorPalette).isSome && (g.undoRedoHistory).isSome

/-- The pure core of `loadGlw` after JSON parsing: migrate when the major
version differs from the current one, then validate. -/
def loadGlwPure (g : GlwFile) : Option GlwFile :=
  let g' := if isVersionCompatible g.version then g else migrateGlwFile g
  if validateGlwSchema g' then some g' else none

/-! ### Theorems: action history (stack discipline and cap) -/

/-- The action record minted by `pushAction` when the id counter is `k`. -/
def mint {ActionData : Type} (k : Nat) (args : PushArgs ActionData) : Action ActionData :=
  { id := mkId "action_" k, type := args.type, timestamp := args.timestamp,
    description := args.description, data := args.data, targetObject := args.targetObject }

/-- Eviction applied by `pushAction` after appending. -/
def stackEvict {α : Type} (l : List α) : List α :=
  if maxStackSize < l.length then l.drop 1 else l

theorem pushAction_undoStack {ActionData : Type} (h : ActionHistory ActionData)
    (args : PushArgs ActionData) :
    (h.pushAction args).undoStack = stackEvict (h.undoStack ++ [mint h.actionIdCounter args]) :=
  rfl

theorem pushAction_redoStack {ActionData : Type} (h : ActionHistory ActionData)
    (args : PushArgs ActionData) : (h.pushAction args).redoStack = [] := rfl

theorem pushAction_counter {ActionData : Type} (h : ActionHistory ActionData)
    (args : PushArgs ActionData) :
    (h.pushAction args).actionIdCounter = h.actionIdCounter + 1 := rfl

theorem stackEvict_concat_shape {α : Type} (l : List α) (a : α) :
    ∃ l', stackEvict (l ++ [a]) = l' ++ [a] := by
  unfold stackEvict
  split
  · rename_i hlen
    match l with
    | [] => simp [maxStackSize] at hlen
    | b :: t => exact ⟨t, by simp⟩
  · exact ⟨l, rfl⟩

theorem getLast?_stackEvict_concat {α : Type} (l : List α) (a : α) :
    (stackEvict (l ++ [a])).getLast? = some a := by
  obtain ⟨l', hl'⟩ := stackEvict_concat_shape l a
  rw [hl', List.getLast?_concat]

theorem stackEvict_concat2 {α : Type} (l : List α) (a b : α) :
    (stackEvict ((l ++ [a]) ++ [b])).dropLast.getLast? = some a := by
  unfold stackEvict
  split
  · rename_i hlen
    match l with
    | [] => simp [maxStackSize] at hlen
    | c :: t =>
      have : ((((c :: t) ++ [a]) ++ [b]).drop 1) = (t ++ [a]) ++ [b] := by simp
      rw [this, List.dropLast_concat, List.getLast?_concat]
  · rw [List.dropLast_concat, List.getLast?_concat]

/-- C5: after push(A); push(B); undo(), the undo call returns B, peekUndo
then returns A, canRedo is true; after a further push(C) the redo stack is
emptied, so canRedo is false and B is unrecoverable. -/
theorem history_lifo_redo_invalidation {ActionData : Type} (h : ActionHistory ActionData)
    (A B C : PushArgs ActionData) :
    ((h.pushAction A).pushAction B).undo.1
        = some (mint ((h.pushAction A).actionIdCounter) B) ∧
    ((h.pushAction A).pushAction B).undo.2.peekUndo = some (mint h.actionIdCounter A) ∧
    ((h.pushAction A).pushAction B).undo.2.canRedo = true ∧
    (((h.pushAction A).pushAction B).undo.2.pushAction C).canRedo = false ∧
    (((h.pushAction A).pushAction B).undo.2.pushAction C).redoStack = [] := by
  set h₁ := h.pushAction A with hh₁
  set h₂ := h₁.pushAction B with hh₂
  obtain ⟨l₀, hl₀⟩ := stackEvict_concat_shape h.undoStack (mint h.actionIdCounter A)
  have hstack₁ : h₁.undoStack = l₀ ++ [mint h.actionIdCounter A] := by
    rw [hh₁, pushAction_undoStack, hl₀]
  have hlast₂ : h₂.undoStack.getLast? = some (mint h₁.actionIdCounter B) := by
    rw [hh₂, pushAction_undoStack]
    exact getLast?_stackEvict_concat _ _
  have hundo : h₂.undo
      = (some (mint h₁.actionIdCounter B),
         { h₂ with undoStack := h₂.undoStack.dropLast,
                   redoStack := h₂.redoStack ++ [mint h₁.actionIdCounter B] }) := by
    unfold ActionHistory.undo
    rw [hlast₂]
  refine ⟨by rw [hundo], ?_, ?_, ?_, ?_⟩
  · rw [hundo]
    show h₂.undoStack.dropLast.getLast? = some (mint h.actionIdCounter A)
    rw [hh₂, pushAction_undoStack, hstack₁]
    exact stackEvict_concat2 _ _ _
  · rw [hundo]
    simp [ActionHistory.canRedo]
  · rw [hundo]
    simp [ActionHistory.canRedo, pushAction_redoStack]
  · rw [hundo, pushAction_redoStack]

/-- The actions minted by a run of pushes starting at id counter `k`. -/
def mintedSeq {ActionData : Type} (k : Nat) : List (PushArgs ActionData) →
    List (Action ActionData)
  | [] => []
  | args :: rest => mint k args :: mintedSeq (k + 1) rest

theorem mintedSeq_length {ActionData : Type} (argsList : List (PushArgs ActionData)) :
    ∀ k, (mintedSeq k argsList).length = argsList.length := by
  induction argsList with
  | nil => intro k; rfl
  | cons a rest ih => intro k; simp [mintedSeq, ih]

theorem mintedSeq_append {ActionData : Type} (l : List (PushArgs ActionData))
    (a : PushArgs ActionData) : ∀ k,
    mintedSeq k (l ++ [a]) = mintedSeq k l ++ [mint (k + l.length) a] := by
  induction l with
  | nil => intro k; simp [mintedSeq]
  | cons b rest ih =>
    intro k
    show mint k b :: mintedSeq (k + 1) (rest ++ [a])
        = (mint k b :: mintedSeq (k + 1) rest) ++ [mint (k + (rest.length + 1)) a]
    rw [ih (k + 1), List.cons_append]
    have harith : k + 1 + rest.length = k + (rest.length + 1) := by omega
    rw [harith]

theorem pushMany_append_one {ActionData : Type} (h : ActionHistory ActionData)
    (l : List (PushArgs ActionData)) (a : PushArgs ActionData) :
    h.pushMany (l ++ [a]) = (h.pushMany l).pushAction a := by
  simp [ActionHistory.pushMany, List.foldl_append]

theorem pushMany_spec {ActionData : Type} (argsList : List (PushArgs ActionData)) :
    ((ActionHistory.init ActionData).pushMany argsList).actionIdCounter = argsList.length ∧
    ((ActionHistory.init ActionData).pushMany argsList).undoStack
      = (mintedSeq 0 argsList).drop (argsList.length - maxStackSize) := by
  induction argsList using List.reverseRecOn with
  | nil => exact ⟨rfl, List.drop_nil.symm⟩
  | append_singleton l a ih =>
    obtain ⟨ihc, ihs⟩ := ih
    rw [pushMany_append_one]
    have hlen : (l ++ [a]).length = l.length + 1 := by simp
    refine ⟨by rw [pushAction_counter, ihc, hlen], ?_⟩
    rw [pushAction_undoStack, ihc, ihs, mintedSeq_append, hlen]
    simp only [Nat.zero_add]
    have hEl : (@mintedSeq ActionData 0 l).length = l.length :=
      mintedSeq_length l 0
    set E := @mintedSeq ActionData 0 l with hE
    set x := mint l.length a with hx
    by_cases hc : l.length < maxStackSize
    · have h₁ : l.length - maxStackSize = 0 := by omega
      have h₂ : l.length + 1 - maxStackSize = 0 := by omega
      rw [h₁, h₂]
      simp only [List.drop_zero]
      unfold stackEvict
      rw [if_neg (by rw [List.length_append, hEl]; simp only [List.length_cons,
        List.length_nil]; omega)]
    · have hdlen : (E.drop (l.length - maxStackSize)).length = maxStackSize := by
        rw [List.length_drop, hEl]; omega
      unfold stackEvict
      rw [if_pos (by rw [List.length_append, hdlen]; simp only [List.length_cons,
        List.length_nil]; omega)]
      obtain ⟨e, t, hd⟩ : ∃ e t, E.drop (l.length - maxStackSize) = e :: t := by
        cases hcase : E.drop (l.length - maxStackSize) with
        | nil =>
          rw [hcase] at hdlen
          simp only [List.length_nil, maxStackSize] at hdlen
          exact absurd hdlen (by decide)
        | cons e t => exact ⟨e, t, rfl⟩
      rw [hd]
      have hdrop : (((e :: t) ++ [x]).drop 1) = t ++ [x] := by simp
      rw [hdrop]
      have ht : t = E.drop (l.length - maxStackSize + 1) := by
        have h2 := congrArg (List.drop 1) hd
        simpa [List.drop_drop] using h2.symm
      rw [ht]
      have hms : 0 < maxStackSize := by decide
      have harith : l.length + 1 - maxStackSize = l.length - maxStackSize + 1 := by
        omega
      rw [harith, List.drop_append_of_le_length
        (show l.length - maxStackSize + 1 ≤ E.length by omega)]

/-- C6: pushing maxStackSize + 1 actions onto an empty history leaves
exactly maxStackSize entries, the oldest (first-minted) action having been
evicted; and no push sequence ever grows the undo stack past maxStackSize. -/
theorem history_stack_cap {ActionData : Type} :
    (∀ argsList : List (PushArgs ActionData), argsList.length = maxStackSize + 1 →
      ((ActionHistory.init ActionData).pushMany argsList).undoStack
          = (mintedSeq 0 argsList).drop 1 ∧
      ((ActionHistory.init ActionData).pushMany argsList).undoStack.length = maxStackSize) ∧
    (∀ argsList : List (PushArgs ActionData),
      ((ActionHistory.init ActionData).pushMany argsList).undoStack.length ≤ maxStackSize) := by
  constructor
  · intro argsList hlen
    obtain ⟨-, hs⟩ := pushMany_spec argsList
    have h₁ : argsList.length - maxStackSize = 1 := by omega
    refine ⟨by rw [hs, h₁], ?_⟩
    rw [hs, h₁]
    simp [mintedSeq_length, hlen]
  · intro argsList
    obtain ⟨-, hs⟩ := pushMany_spec argsList
    rw [hs, List.length_drop, mintedSeq_length]
    omega

/-- Witness for C6 at a concrete run of 1001 identical pushes. -/
theorem history_stack_cap_witness :
    (List.replicate (maxStackSize + 1)
        (⟨"addVoxel", "payload", "add voxel", "main", "2024-01-01"⟩ : PushArgs String)).length
      = maxStackSize + 1 ∧
    ((ActionHistory.init String).pushMany
        (List.replicate (maxStackSize + 1)
          ⟨"addVoxel", "payload", "add voxel", "main", "2024-01-01"⟩)).undoStack.length
      = maxStackSize := by
  have hlen : (List.replicate (maxStackSize + 1)
      (⟨"addVoxel", "payload", "add voxel", "main", "2024-01-01"⟩ : PushArgs String)).length
      = maxStackSize + 1 := by simp
  exact ⟨hlen, ((history_stack_cap.1 _) hlen).2⟩

/-! ### Theorems: voxel creation shape and extrusion -/

theorem addVoxel_some {s : VoxelMesh} {p : Vector3} {v : Voxel} {s' : VoxelMesh}
    (h : s.addVoxel p = (some v, s')) :
    s.outOfBounds p = false ∧ s.occupied p = false ∧
    v = (s.createVoxel p).1 ∧ s' = (s.createVoxel p).2 := by
  unfold VoxelMesh.addVoxel at h
  cases hb : s.outOfBounds p with
  | true => rw [hb] at h; simp at h
  | false =>
    rw [hb] at h
    cases ho : s.occupied p with
    | true => rw [ho] at h; simp at h
    | false =>
      rw [ho] at h
      simp at h
      exact ⟨rfl, rfl, h.1.symm, h.2.symm⟩

theorem createFaces_ids (vs : List Vertex) :
    (createFaces vs).map Face.id
      = ["face_0", "face_1", "face_2", "face_3", "face_4", "face_5"] := rfl

theorem createFaces_normals (vs : List Vertex) :
    (createFaces vs).map Face.normal = ["y+", "y-", "z-", "z+", "x-", "x+"] := rfl

theorem createFaces_each (vs : List Vertex) :
    ∀ f ∈ createFaces vs, f.vertexIds.length = 4 ∧ f.color = "#808080" := by
  have h : (createFaces vs).all
      (fun f => f.vertexIds.length == 4 && f.color == "#808080") = true := rfl
  intro f hf
  have h2 := List.all_eq_true.mp h f hf
  simp at h2
  exact h2

/-- C10 counterexample: the faces of the very first voxel added to a fresh
store carry the index-based identifiers `face_0` .. `face_5`, and `face_0`
is not one of the six canonical names. -/
theorem face_ids_not_canonical :
    ((VoxelMesh.init.addVoxel ⟨0, 0, 0⟩).1.map (fun v => v.faces.map Face.id))
        = some ["face_0", "face_1", "face_2", "face_3", "face_4", "face_5"] ∧
    ("face_0" ∈ (["top", "bottom", "front", "back", "left", "right"] : List String)) = False := by
  constructor
  · rfl
  · simp

/-- C10 amended: every voxel successfully created by `addVoxel` has exactly
6 faces whose identifiers are `face_0` .. `face_5` (in the fixed
top/bottom/front/back/left/right definition order), whose normal tags are
the six directions, each face listing exactly 4 vertex ids and carrying the
default mid-gray color. -/
theorem addVoxel_face_shape (s : VoxelMesh) (p : Vector3) (v : Voxel) (s' : VoxelMesh)
    (h : s.addVoxel p = (some v, s')) :
    v.faces.length = 6 ∧
    v.faces.map Face.id = ["face_0", "face_1", "face_2", "face_3", "face_4", "face_5"] ∧
    v.faces.map Face.normal = ["y+", "y-", "z-", "z+", "x-", "x+"] ∧
    (∀ f ∈ v.faces, f.vertexIds.length = 4 ∧ f.color = "#808080") := by
  obtain ⟨-, -, hv, -⟩ := addVoxel_some h
  subst hv
  refine ⟨rfl, createFaces_ids _, createFaces_normals _, createFaces_each _⟩

/-- Witness for the amended C10 theorem at a concrete successful add. -/
theorem addVoxel_face_shape_witness :
    VoxelMesh.init.addVoxel ⟨0, 0, 0⟩
        = (some (VoxelMesh.init.createVoxel ⟨0, 0, 0⟩).1,
           (VoxelMesh.init.createVoxel ⟨0, 0, 0⟩).2) ∧
    (VoxelMesh.init.createVoxel ⟨0, 0, 0⟩).1.faces.length = 6 := by
  have h : VoxelMesh.init.addVoxel ⟨0, 0, 0⟩
      = (some (VoxelMesh.init.createVoxel ⟨0, 0, 0⟩).1,
         (VoxelMesh.init.createVoxel ⟨0, 0, 0⟩).2) := rfl
  exact ⟨h, (addVoxel_face_shape _ _ _ _ h).1⟩

/-- C4: addVoxelAtFaceId rejects a missing voxel or face, and otherwise
delegates to addVoxel at the source position offset by the face-normal
delta; the six documented deltas; rejection of the delegate propagates; and
the concrete x+ extrusion of a voxel at (2,3,4) lands at (3,3,4). -/
theorem addVoxelAtFaceId_spec (s : VoxelMesh) (voxelId faceId : String) :
    (mapGet s.voxels voxelId = none → s.addVoxelAtFaceId voxelId faceId = (none, s)) ∧
    (∀ V, mapGet s.voxels voxelId = some V →
      (V.faces.find? (fun f => f.id == faceId) = none →
        s.addVoxelAtFaceId voxelId faceId = (none, s)) ∧
      (∀ f, V.faces.find? (fun f => f.id == faceId) = some f →
        s.addVoxelAtFaceId voxelId faceId = s.addVoxel (normalDelta f.normal V.position))) ∧
    (∀ q : Vector3,
      normalDelta "x+" q = ⟨q.x + 1, q.y, q.z⟩ ∧ normalDelta "x-" q = ⟨q.x - 1, q.y, q.z⟩ ∧
      normalDelta "y+" q = ⟨q.x, q.y + 1, q.z⟩ ∧ normalDelta "y-" q = ⟨q.x, q.y - 1, q.z⟩ ∧
      normalDelta "z+" q = ⟨q.x, q.y, q.z + 1⟩ ∧ normalDelta "z-" q = ⟨q.x, q.y, q.z - 1⟩) ∧
    (((VoxelMesh.init.addVoxel ⟨2, 3, 4⟩).2.addVoxelAtFaceId "voxel_0" "face_5").1.map
        Voxel.position = some ⟨3, 3, 4⟩) := by
  refine ⟨?_, ?_, ?_, ?_⟩
  · intro hv
    unfold VoxelMesh.addVoxelAtFaceId
    rw [hv]
  · intro V hv
    constructor
    · intro hf
      simp only [VoxelMesh.addVoxelAtFaceId, hv, hf]
    · intro f hf
      simp only [VoxelMesh.addVoxelAtFaceId, hv, hf]
  · intro q
    refine ⟨rfl, ?_, ?_, ?_, ?_, ?_⟩ <;> rfl
  · rfl

/-- Witness for C4 at a concrete store, voxel and face. -/
theorem addVoxelAtFaceId_spec_witness :
    mapGet (VoxelMesh.init.addVoxel ⟨2, 3, 4⟩).2.voxels "voxel_0"
        = some (VoxelMesh.init.createVoxel ⟨2, 3, 4⟩).1 ∧
    ((VoxelMesh.init.createVoxel ⟨2, 3, 4⟩).1.faces.find? (fun f => f.id == "face_5")).map
        Face.normal = some "x+" ∧
    (VoxelMesh.init.addVoxel ⟨2, 3, 4⟩).2.addVoxelAtFaceId "voxel_0" "face_5"
      = (VoxelMesh.init.addVoxel ⟨2, 3, 4⟩).2.addVoxel
          (normalDelta "x+" (VoxelMesh.init.createVoxel ⟨2, 3, 4⟩).1.position) := by
  have hv : mapGet (VoxelMesh.init.addVoxel ⟨2, 3, 4⟩).2.voxels "voxel_0"
      = some (VoxelMesh.init.createVoxel ⟨2, 3, 4⟩).1 := rfl
  have hf : (VoxelMesh.init.createVoxel ⟨2, 3, 4⟩).1.faces.find? (fun f => f.id == "face_5")
      = some ((VoxelMesh.init.createVoxel ⟨2, 3, 4⟩).1.faces.getD 5 ⟨"", [], "", ""⟩) := rfl
  refine ⟨hv, by rw [hf]; rfl, ?_⟩
  have h := (((addVoxelAtFaceId_spec (VoxelMesh.init.addVoxel ⟨2, 3, 4⟩).2
      "voxel_0" "face_5").2.1 _ hv).2 _ hf)
  simpa using h

/-! ### Theorems: position uniqueness and identifier reuse -/

/-- A sequence of `addVoxel` calls (results discarded, states chained). -/
def VoxelMesh.addSeq (s : VoxelMesh) (ps : List Vector3) : VoxelMesh :=
  ps.foldl (fun s p => (s.addVoxel p).2) s

/-- No two live voxels share a grid position. -/
def positionsUnique (s : VoxelMesh) : Prop :=
  (s.voxels.map (fun e => e.2.position)).Nodup

/-- Every live voxel key was minted by the id counter. -/
def keysCounterBound (s : VoxelMesh) : Prop :=
  ∀ e ∈ s.voxels, ∃ m, m < s.voxelIdCounter ∧ e.1 = mkVoxelId m

theorem occupied_false_iff (s : VoxelMesh) (p : Vector3) :
    s.occupied p = false ↔ ∀ e ∈ s.voxels, e.2.position ≠ p := by
  simp [VoxelMesh.occupied, List.any_eq_true]

theorem addVoxel_preserves_inv (s : VoxelMesh) (p : Vector3)
    (h : positionsUnique s ∧ keysCounterBound s) :
    positionsUnique (s.addVoxel p).2 ∧ keysCounterBound (s.addVoxel p).2 := by
  obtain ⟨hpos, hkeys⟩ := h
  unfold VoxelMesh.addVoxel
  cases hb : s.outOfBounds p with
  | true => exact ⟨hpos, hkeys⟩
  | false =>
    cases ho : s.occupied p with
    | true => exact ⟨hpos, hkeys⟩
    | false =>
      simp only [Bool.false_eq_true, if_false]
      have hfresh : ∀ e ∈ s.voxels, e.1 ≠ mkVoxelId s.voxelIdCounter := by
        intro e he
        obtain ⟨m, hm, hkey⟩ := hkeys e he
        rw [hkey]
        exact mkId_ne "voxel_" (by omega)
      have hset : mapSet s.voxels (mkVoxelId s.voxelIdCounter) (s.createVoxel p).1
          = s.voxels ++ [(mkVoxelId s.voxelIdCounter, (s.createVoxel p).1)] :=
        mapSet_append_of_not_mem _ _ _ hfresh
      have hvox : (s.createVoxel p).2.voxels
          = s.voxels ++ [(mkVoxelId s.voxelIdCounter, (s.createVoxel p).1)] := hset
      have hcnt : (s.createVoxel p).2.voxelIdCounter = s.voxelIdCounter + 1 := rfl
      constructor
      · show ((s.createVoxel p).2.voxels.map (fun e => e.2.position)).Nodup
        rw [hvox]
        simp only [List.map_append, List.map_cons, List.map_nil]
        rw [List.nodup_append]
        refine ⟨hpos, List.nodup_singleton _, ?_⟩
        intro q hq
        simp only [List.mem_map] at hq
        obtain ⟨e, he, hqe⟩ := hq
        have hne := (occupied_false_iff s p).mp ho e he
        simp only [List.mem_singleton]
        intro hqp
        exact hne (by rw [hqe, hqp]; rfl)
      · show keysCounterBound (s.createVoxel p).2
        intro e he
        rw [hvox] at he
        rcases List.mem_append.mp he with hin | hin
        · obtain ⟨m, hm, hkey⟩ := hkeys e hin
          exact ⟨m, by rw [hcnt]; omega, hkey⟩
        · simp only [List.mem_singleton] at hin
          exact ⟨s.voxelIdCounter, by rw [hcnt]; omega, by rw [hin]⟩

/-- C1: starting from a store with no live voxels, every sequence of
`addVoxel` calls maintains position uniqueness; and an `addVoxel` at an
occupied or out-of-bounds position returns null with the entire store state
(voxel map, color map, id counters) unchanged. -/
theorem addVoxel_uniqueness :
    (∀ start : VoxelMesh, start.voxels = [] →
      ∀ ps : List Vector3, positionsUnique (start.addSeq ps)) ∧
    (∀ (s : VoxelMesh) (p : Vector3),
      s.occupied p = true ∨ s.outOfBounds p = true → s.addVoxel p = (none, s)) := by
  constructor
  · intro start hstart ps
    have hinv : positionsUnique start ∧ keysCounterBound start := by
      constructor
      · show (start.voxels.map (fun e => e.2.position)).Nodup
        rw [hstart]; exact List.nodup_nil
      · intro e he; rw [hstart] at he; cases he
    have hgen : ∀ (l : List Vector3) (s : VoxelMesh),
        positionsUnique s ∧ keysCounterBound s →
        positionsUnique (s.addSeq l) ∧ keysCounterBound (s.addSeq l) := by
      intro l
      induction l with
      | nil => intro s hs; exact hs
      | cons q rest ih =>
        intro s hs
        exact ih _ (addVoxel_preserves_inv s q hs)
    exact (hgen ps start hinv).1
  · intro s p hfail
    unfold VoxelMesh.addVoxel
    cases hb : s.outOfBounds p with
    | true => simp
    | false =>
      cases ho : s.occupied p with
      | true => simp
      | false =>
        rw [hb, ho] at hfail
        simp at hfail

/-- Witness for C1 at a concrete store and call sequence. -/
theorem addVoxel_uniqueness_witness :
    VoxelMesh.init.voxels = [] ∧
    positionsUnique (VoxelMesh.init.addSeq [⟨0, 0, 0⟩, ⟨0, 0, 0⟩, ⟨1, 0, 0⟩]) ∧
    ((VoxelMesh.init.addVoxel ⟨0, 0, 0⟩).2.occupied ⟨0, 0, 0⟩ = true ∨
      (VoxelMesh.init.addVoxel ⟨0, 0, 0⟩).2.outOfBounds ⟨0, 0, 0⟩ = true) ∧
    (VoxelMesh.init.addVoxel ⟨0, 0, 0⟩).2.addVoxel ⟨0, 0, 0⟩
        = (none, (VoxelMesh.init.addVoxel ⟨0, 0, 0⟩).2) := by
  have h₁ : VoxelMesh.init.voxels = [] := rfl
  have h₂ : (VoxelMesh.init.addVoxel ⟨0, 0, 0⟩).2.occupied ⟨0, 0, 0⟩ = true ∨
      (VoxelMesh.init.addVoxel ⟨0, 0, 0⟩).2.outOfBounds ⟨0, 0, 0⟩ = true := Or.inl rfl
  exact ⟨h₁, addVoxel_uniqueness.1 VoxelMesh.init h₁ _, h₂,
    addVoxel_uniqueness.2 _ _ h₂⟩

/-- The store obtained by restoring a previously serialized voxel (as the
project loader does for every voxel of a saved document) into a fresh
`VoxelMesh`: the voxel `voxel_0` is live but the id counter is still 0. -/
def reuseScenarioStore : VoxelMesh :=
  (VoxelMesh.init.restoreVoxel "voxel_0"
    (((VoxelMesh.init.addVoxel ⟨0, 0, 0⟩).2.deleteVoxel "voxel_0").1.getD
      ⟨⟨0, 0, 0⟩, [], [], []⟩)).2

/-- C3 failing run: with `voxel_0` live (restored under its serialized
identifier at position (0,0,0)), a successful `addVoxel` at the free
position (1,0,0) mints the identifier `voxel_0` again and silently
overwrites the live voxel record: the store still holds a single voxel,
now at (1,0,0). -/
theorem voxelId_reuse_bug :
    (mapGet reuseScenarioStore.voxels "voxel_0").map Voxel.position = some ⟨0, 0, 0⟩ ∧
    reuseScenarioStore.voxelIdCounter = 0 ∧
    ((reuseScenarioStore.addVoxel ⟨1, 0, 0⟩).1.map Voxel.id) = some "voxel_0" ∧
    (reuseScenarioStore.addVoxel ⟨1, 0, 0⟩).2.voxels.length = 1 ∧
    (mapGet (reuseScenarioStore.addVoxel ⟨1, 0, 0⟩).2.voxels "voxel_0").map Voxel.position
        = some ⟨1, 0, 0⟩ :=
  ⟨rfl, rfl, rfl, rfl, rfl⟩

/-! ### Theorems: interchange export culling -/

/-- The six valid normal-direction tags. -/
def sixNormals : List String := ["x+", "x-", "y+", "y-", "z+", "z-"]

/-- Store holding exactly the voxels (0,0,0) and (1,0,0). -/
def twoVoxelStore : VoxelMesh :=
  ((VoxelMesh.init.addVoxel ⟨0, 0, 0⟩).2.addVoxel ⟨1, 0, 0⟩).2

/-- C7 counterexample: the two-voxel store exports 10 boundary faces, not
12 — each cube contributes 6 faces and exactly the shared pair is culled. -/
theorem export_culling_count :
    (exportedFaces twoVoxelStore.voxels).length = 10 ∧
    (exportedFaces twoVoxelStore.voxels).length ≠ 12 := by
  constructor
  · rfl
  · decide

/-- C7 amended: a face survives export culling iff no voxel sits at the
face-owner's position offset by the face-normal delta; on the two-voxel
store the shared x+/x- pair is culled and the remaining 10 boundary faces
are all exported. -/
theorem export_culling_spec :
    (∀ (voxels : List (String × Voxel)) (pos : Vector3) (normal : String),
      normal ∈ sixNormals →
      (hasAdjacentVoxel voxels pos normal = true ↔
        ∃ e ∈ voxels, e.2.position = normalDelta normal pos)) ∧
    (∀ (voxels : List (String × Voxel)) (v : Voxel) (f : Face),
      (∃ e ∈ voxels, e.2 = v) → f ∈ v.faces →
      ((v, f) ∈ exportedFaces voxels ↔
        hasAdjacentVoxel voxels v.position f.normal = false)) ∧
    ((exportedFaces twoVoxelStore.voxels).map (fun pr => (pr.1.id, pr.2.normal))
      = [("voxel_0", "y+"), ("voxel_0", "y-"), ("voxel_0", "z-"), ("voxel_0", "z+"),
         ("voxel_0", "x-"), ("voxel_1", "y+"), ("voxel_1", "y-"), ("voxel_1", "z-"),
         ("voxel_1", "z+"), ("voxel_1", "x+")]) ∧
    (∀ pr ∈ exportedFaces twoVoxelStore.voxels,
      ¬(pr.1.id = "voxel_0" ∧ pr.2.normal = "x+") ∧
      ¬(pr.1.id = "voxel_1" ∧ pr.2.normal = "x-")) := by
  refine ⟨?_, ?_, rfl, by decide⟩
  · intro voxels pos normal hn
    fin_cases hn <;>
      simp [hasAdjacentVoxel, adjacentCheckPos, normalDelta, List.any_eq_true, beq_iff_eq]
  · intro voxels v f hv hf
    obtain ⟨e₀, he₀, hev⟩ := hv
    constructor
    · intro hmem
      simp only [exportedFaces, List.mem_flatten, List.mem_map] at hmem
      obtain ⟨l, ⟨e, he, hgl⟩, hin⟩ := hmem
      rw [← hgl] at hin
      simp only [List.mem_map, List.mem_filter] at hin
      obtain ⟨face, ⟨-, hkeep⟩, hpair⟩ := hin
      obtain ⟨hv2, hface⟩ := Prod.mk.injEq .. ▸ hpair
      rw [← hv2, ← hface]
      simpa using hkeep
    · intro hnot
      simp only [exportedFaces, List.mem_flatten, List.mem_map]
      refine ⟨(e₀.2.faces.filter
          (fun face => !hasAdjacentVoxel voxels e₀.2.position face.normal)).map
            (fun face => (e₀.2, face)), ⟨e₀, he₀, rfl⟩, ?_⟩
      simp only [List.mem_map, List.mem_filter]
      exact ⟨f, ⟨by rw [hev]; exact hf, by rw [hev, hnot]; rfl⟩, by rw [hev]⟩

/-- Witness for C7 at a concrete normal, store, voxel and face. -/
theorem export_culling_spec_witness :
    ("x+" ∈ sixNormals ∧
      (hasAdjacentVoxel twoVoxelStore.voxels ⟨0, 0, 0⟩ "x+" = true ↔
        ∃ e ∈ twoVoxelStore.voxels, e.2.position = normalDelta "x+" ⟨0, 0, 0⟩)) ∧
    ((∃ e ∈ twoVoxelStore.voxels, e.2 = (VoxelMesh.init.createVoxel ⟨0, 0, 0⟩).1) ∧
      ((VoxelMesh.init.createVoxel ⟨0, 0, 0⟩).1.faces.getD 0 ⟨"", [], "", ""⟩)
        ∈ (VoxelMesh.init.createVoxel ⟨0, 0, 0⟩).1.faces ∧
      (((VoxelMesh.init.createVoxel ⟨0, 0, 0⟩).1,
        (VoxelMesh.init.createVoxel ⟨0, 0, 0⟩).1.faces.getD 0 ⟨"", [], "", ""⟩)
          ∈ exportedFaces twoVoxelStore.voxels ↔
        hasAdjacentVoxel twoVoxelStore.voxels
          (VoxelMesh.init.createVoxel ⟨0, 0, 0⟩).1.position
          ((VoxelMesh.init.createVoxel ⟨0, 0, 0⟩).1.faces.getD 0 ⟨"", [], "", ""⟩).normal
            = false)) := by
  have hn : "x+" ∈ sixNormals := by decide
  have hv : ∃ e ∈ twoVoxelStore.voxels, e.2 = (VoxelMesh.init.createVoxel ⟨0, 0, 0⟩).1 := by
    refine ⟨("voxel_0", (VoxelMesh.init.createVoxel ⟨0, 0, 0⟩).1), ?_, rfl⟩
    decide
  have hf : ((VoxelMesh.init.createVoxel ⟨0, 0, 0⟩).1.faces.getD 0 ⟨"", [], "", ""⟩)
      ∈ (VoxelMesh.init.createVoxel ⟨0, 0, 0⟩).1.faces := by decide
  exact ⟨⟨hn, export_culling_spec.1 _ _ _ hn⟩,
    ⟨hv, hf, export_culling_spec.2.1 _ _ _ hv hf⟩⟩

/-! ### Theorems: project document migration -/

/-- A version 0.2.0 document with the later-introduced fields missing. -/
def oldDoc : GlwFile :=
  { version := "0.2.0",
    metadata := { version := "0.2.0", createdAt := "2024-01-01", updatedAt := "2024-01-01",
                  gridSizeX := 10, gridSizeY := 12, gridSizeZ := none,
                  maxGridX := none, maxGridY := none, maxGrid := none },
    mainObject := { gridSizeX := 10, gridSizeY := 12, gridSizeZ := none,
                    voxels := [], colors := [] },
    adjacentObjects := none,
    colorPalette := some [],
    undoRedoHistory := some [] }

/-- C9 counterexample: migrating a document whose major version differs
from the current one rewrites its version to the current version, changing
the major component — migration does not leave the major version alone. -/
theorem migration_changes_major :
    isVersionCompatible oldDoc.version = false ∧
    (migrateGlwFile oldDoc).version = "1.0.0" ∧
    (parseVersion (migrateGlwFile oldDoc).version).major
        ≠ (parseVersion oldDoc.version).major := by
  refine ⟨rfl, rfl, by decide⟩

/-- C9 amended: on load of a document with a differing major version,
migration fills the missing fields with the documented safe defaults
(absent adjacentObjects becomes [], falsy gridSizeZ defaults to gridSizeY
in metadata and main object, falsy maxGridX/maxGridY become 50), leaves the
voxel and color payload untouched, and stamps the document with the
current version — thereby changing its major version when it differed. -/
theorem migrate_fills_defaults (g : GlwFile) :
    (migrateGlwFile g).version = CURRENT_VERSION ∧
    (g.adjacentObjects = none → (migrateGlwFile g).adjacentObjects = some []) ∧
    (∀ l, g.adjacentObjects = some l → (migrateGlwFile g).adjacentObjects = some l) ∧
    (numFalsy g.metadata.gridSizeZ = true →
      (migrateGlwFile g).metadata.gridSizeZ = some g.metadata.gridSizeY) ∧
    (numFalsy g.metadata.gridSizeZ = false →
      (migrateGlwFile g).metadata.gridSizeZ = g.metadata.gridSizeZ) ∧
    (numFalsy g.mainObject.gridSizeZ = true →
      (migrateGlwFile g).mainObject.gridSizeZ = some g.mainObject.gridSizeY) ∧
    (numFalsy g.mainObject.gridSizeZ = false →
      (migrateGlwFile g).mainObject.gridSizeZ = g.mainObject.gridSizeZ) ∧
    (numFalsy g.metadata.maxGridX = true →
      (migrateGlwFile g).metadata.maxGridX = some 50) ∧
    (numFalsy g.metadata.maxGridY = true →
      (migrateGlwFile g).metadata.maxGridY = some 50) ∧
    (migrateGlwFile g).mainObject.voxels = g.mainObject.voxels ∧
    (migrateGlwFile g).mainObject.colors = g.mainObject.colors ∧
    (isVersionCompatible g.version = false →
      loadGlwPure g = (if validateGlwSchema (migrateGlwFile g)
        then some (migrateGlwFile g) else none)) := by
  refine ⟨rfl, ?_, ?_, ?_, ?_, ?_, ?_, ?_, ?_, rfl, rfl, ?_⟩
  · intro h; simp [migrateGlwFile, h]
  · intro l h; simp [migrateGlwFile, h]
  · intro h; simp [migrateGlwFile, h]
  · intro h; simp [migrateGlwFile, h]
  · intro h; simp [migrateGlwFile, h]
  · intro h; simp [migrateGlwFile, h]
  · intro h; simp [migrateGlwFile, h]
  · intro h; simp [migrateGlwFile, h]
  · intro h; simp [loadGlwPure, h]

/-- Witness for the amended C9 theorem at the concrete 0.2.0 document. -/
theorem migrate_fills_defaults_witness :
    oldDoc.adjacentObjects = none ∧
    numFalsy oldDoc.metadata.gridSizeZ = true ∧
    isVersionCompatible oldDoc.version = false ∧
    (migrateGlwFile oldDoc).adjacentObjects = some [] ∧
    (migrateGlwFile oldDoc).metadata.gridSizeZ = some oldDoc.metadata.gridSizeY ∧
    loadGlwPure oldDoc = (if validateGlwSchema (migrateGlwFile oldDoc)
      then some (migrateGlwFile oldDoc) else none) := by
  have h := migrate_fills_defaults oldDoc
  exact ⟨rfl, rfl, rfl, h.2.1 rfl, h.2.2.2.1 rfl, h.2.2.2.2.2.2.2.2.2.2.2 rfl⟩

/-! ### Theorems: export winding -/

theorem createVertices_eq (c : Nat) (p : Vector3) :
    createVertices c p =
      [⟨mkVertexId (c + 0), p.x + 0, p.y + 1, p.z + 0⟩,
       ⟨mkVertexId (c + 1), p.x + 1, p.y + 1, p.z + 0⟩,
       ⟨mkVertexId (c + 2), p.x + 0, p.y + 0, p.z + 0⟩,
       ⟨mkVertexId (c + 3), p.x + 1, p.y + 0, p.z + 0⟩,
       ⟨mkVertexId (c + 4), p.x + 0, p.y + 1, p.z + 1⟩,
       ⟨mkVertexId (c + 5), p.x + 1, p.y + 1, p.z + 1⟩,
       ⟨mkVertexId (c + 6), p.x + 0, p.y + 0, p.z + 1⟩,
       ⟨mkVertexId (c + 7), p.x + 1, p.y + 0, p.z + 1⟩] := rfl

theorem mkVertexId_add_beq (c i j : Nat) :
    (mkVertexId (c + i) == mkVertexId (c + j)) = (i == j) := by
  by_cases h : i = j
  · subst h; simp
  · have hne : mkVertexId (c + i) ≠ mkVertexId (c + j) := by
      intro hc
      exact h (by have := mkId_inj "v_" hc; omega)
    rw [beq_eq_false_iff_ne.mpr hne]
    exact (beq_eq_false_iff_ne.mpr h).symm

theorem mkVertexId_zero_add_beq (c j : Nat) :
    (mkVertexId c == mkVertexId (c + j)) = (0 == j) := by
  have h := mkVertexId_add_beq c 0 j
  simpa using h

theorem mkVertexId_add_zero_beq (c i : Nat) :
    (mkVertexId (c + i) == mkVertexId c) = (i == 0) := by
  have h := mkVertexId_add_beq c i 0
  simpa using h

/-- C8: the export triangulates dash-normals with index order (0,1,2),(0,2,3)
and plus-normals with (0,2,1),(0,3,2), and for every face of a voxel built
by createVertices/createFaces at any position and any vertex-counter value,
the cross product of each emitted triangle's first two edges equals the
face's stored axis-aligned outward normal vector, for all six directions. -/
theorem export_winding (c : Nat) (p : Vector3) (idStr : String) :
    (∀ n : String, endsWithDash n = true →
      quadTriangles (endsWithDash n) = [(0, 1, 2), (0, 2, 3)]) ∧
    (∀ n : String, endsWithDash n = false →
      quadTriangles (endsWithDash n) = [(0, 2, 1), (0, 3, 2)]) ∧
    (∀ face ∈ createFaces (createVertices c p),
      ∀ t ∈ faceTriangles
          ⟨idStr, p, createVertices c p, createFaces (createVertices c p)⟩ face,
        triNormal t = normalToVec3 face.normal) := by
  refine ⟨fun n h => by rw [h]; rfl, fun n h => by rw [h]; rfl, ?_⟩
  intro face hface
  simp only [createFaces, createVertices_eq, faceDefinitions, List.range,
    List.range.loop, List.map_cons, List.map_nil, List.mem_cons, List.not_mem_nil,
    or_false] at hface
  rcases hface with h | h | h | h | h | h <;> subst h <;> intro t ht <;>
    simp [faceTriangles, faceVertexPositions, createVertices_eq, cornerOffsets,
      List.find?, mkVertexId_add_beq, mkVertexId_zero_add_beq, mkVertexId_add_zero_beq,
      quadTriangles, endsWithDash, List.filterMap] at ht <;>
    rcases ht with rfl | rfl <;>
    simp [triNormal, vcross, vsub, normalToVec3, Vector3.mk.injEq]

/-- Witness for C8 at a concrete voxel, face and triangle. -/
theorem export_winding_witness :
    (endsWithDash "y-" = true ∧
      quadTriangles (endsWithDash "y-") = [(0, 1, 2), (0, 2, 3)]) ∧
    (endsWithDash "y+" = false ∧
      quadTriangles (endsWithDash "y+") = [(0, 2, 1), (0, 3, 2)]) ∧
    (((createFaces (createVertices 0 ⟨0, 0, 0⟩)).getD 0 ⟨"", [], "", ""⟩)
        ∈ createFaces (createVertices 0 ⟨0, 0, 0⟩) ∧
      ((⟨0, 1, 0⟩, ⟨1, 1, 1⟩, ⟨1, 1, 0⟩) : Vector3 × Vector3 × Vector3) ∈
        faceTriangles
          ⟨"voxel_0", ⟨0, 0, 0⟩, createVertices 0 ⟨0, 0, 0⟩,
            createFaces (createVertices 0 ⟨0, 0, 0⟩)⟩
          ((createFaces (createVertices 0 ⟨0, 0, 0⟩)).getD 0 ⟨"", [], "", ""⟩) ∧
      triNormal ((⟨0, 1, 0⟩, ⟨1, 1, 1⟩, ⟨1, 1, 0⟩) : Vector3 × Vector3 × Vector3)
        = normalToVec3
            ((createFaces (createVertices 0 ⟨0, 0, 0⟩)).getD 0 ⟨"", [], "", ""⟩).normal) := by
  have hd : endsWithDash "y-" = true := rfl
  have hp : endsWithDash "y+" = false := rfl
  have hface : ((createFaces (createVertices 0 ⟨0, 0, 0⟩)).getD 0 ⟨"", [], "", ""⟩)
      ∈ createFaces (createVertices 0 ⟨0, 0, 0⟩) := by decide
  have htri : ((⟨0, 1, 0⟩, ⟨1, 1, 1⟩, ⟨1, 1, 0⟩) : Vector3 × Vector3 × Vector3) ∈
      faceTriangles
        ⟨"voxel_0", ⟨0, 0, 0⟩, createVertices 0 ⟨0, 0, 0⟩,
          createFaces (createVertices 0 ⟨0, 0, 0⟩)⟩
        ((createFaces (createVertices 0 ⟨0, 0, 0⟩)).getD 0 ⟨"", [], "", ""⟩) := by decide
  exact ⟨⟨hd, (export_winding 0 ⟨0, 0, 0⟩ "voxel_0").1 "y-" hd⟩,
    ⟨hp, (export_winding 0 ⟨0, 0, 0⟩ "voxel_0").2.1 "y+" hp⟩,
    hface, htri, (export_winding 0 ⟨0, 0, 0⟩ "voxel_0").2.2 _ hface _ htri⟩

/-! ### Theorems: delete/restore round trip -/

theorem strAppend_left_cancel {s a b : String} (h : s ++ a = s ++ b) : a = b := by
  have hdata := congrArg String.data h
  simp only [String.data_append] at hdata
  have h2 := List.append_cancel_left hdata
  cases a
  cases b
  exact congrArg String.mk (by simpa using h2)

theorem colorKey_inj (vid : String) {a b : String} (h : colorKey vid a = colorKey vid b) :
    a = b :=
  strAppend_left_cancel (strAppend_left_cancel (by
    simpa only [colorKey, String.append_assoc] using h))

theorem mapGet_eq_none_of_not_mem {α : Type} (m : List (String × α)) (k : String)
    (h : k ∉ m.map Prod.fst) : mapGet m k = none := by
  induction m with
  | nil => rfl
  | cons e rest ih =>
    simp only [List.map_cons, List.mem_cons, not_or] at h
    have hne : ¬ e.1 = k := fun hc => h.1 hc.symm
    simpa [mapGet, List.find?, hne] using ih h.2

theorem mapGet_mapDelete_self_nodup {α : Type} (m : List (String × α)) (k : String)
    (h : (m.map Prod.fst).Nodup) : mapGet (mapDelete m k) k = none := by
  induction m with
  | nil => rfl
  | cons e rest ih =>
    simp only [List.map_cons, List.nodup_cons] at h
    by_cases he : e.1 = k
    · simp only [mapDelete, he, if_true]
      exact mapGet_eq_none_of_not_mem rest k (he ▸ h.1)
    · simp only [mapDelete, he, if_false]
      simpa [mapGet, List.find?, he] using ih h.2

theorem mapGet_mapDelete_none {α : Type} (m : List (String × α)) (k k2 : String)
    (h : mapGet m k2 = none) : mapGet (mapDelete m k) k2 = none := by
  induction m with
  | nil => rfl
  | cons e rest ih =>
    have hne : ¬ e.1 = k2 := by
      intro hc
      simp [mapGet, List.find?, hc] at h
    by_cases he : e.1 = k
    · simp only [mapDelete, he, if_true]
      simpa [mapGet, List.find?, hne] using h
    · simp only [mapDelete, he, if_false]
      have h2 : mapGet rest k2 = none := by simpa [mapGet, List.find?, hne] using h
      simpa [mapGet, List.find?, hne] using ih h2

theorem mapDelete_keys_sublist {α : Type} (m : List (String × α)) (k : String) :
    ((mapDelete m k).map Prod.fst).Sublist (m.map Prod.fst) := by
  induction m with
  | nil => exact List.Sublist.refl _
  | cons e rest ih =>
    by_cases he : e.1 = k
    · simp only [mapDelete, he, if_true, List.map_cons]
      exact (List.sublist_cons_self _ _)
    · simp only [mapDelete, he, if_false, List.map_cons]
      exact List.Sublist.cons₂ _ ih

theorem mapDelete_keys_nodup {α : Type} (m : List (String × α)) (k : String)
    (h : (m.map Prod.fst).Nodup) : ((mapDelete m k).map Prod.fst).Nodup :=
  (mapDelete_keys_sublist m k).nodup h

theorem snapFold_noTouch (cm : List (String × String)) (vid : String) :
    ∀ (L : List Face) (acc : List (String × String)) (key : String),
      (∀ g ∈ L, g.id ≠ key) →
      mapGet (L.foldl (fun acc face =>
          match mapGet cm (colorKey vid face.id) with
          | some c => mapSet acc face.id c
          | none => acc) acc) key = mapGet acc key := by
  intro L
  induction L with
  | nil => intro acc key _; rfl
  | cons g T ih =>
    intro acc key hkey
    simp only [List.foldl_cons]
    rw [ih _ key (fun g2 hg2 => hkey g2 (List.mem_cons_of_mem g hg2))]
    cases hc : mapGet cm (colorKey vid g.id) with
    | none => rfl
    | some c =>
      exact mapGet_mapSet_other acc g.id key c (fun h => hkey g (List.mem_cons_self g T) h.symm)

theorem snapFold_lookup (cm : List (String × String)) (vid : String) :
    ∀ (L : List Face) (acc : List (String × String)) (f : Face),
      f ∈ L → (L.map Face.id).Nodup →
      mapGet (L.foldl (fun acc face =>
          match mapGet cm (colorKey vid face.id) with
          | some c => mapSet acc face.id c
          | none => acc) acc) f.id
        = match mapGet cm (colorKey vid f.id) with
          | some c => some c
          | none => mapGet acc f.id := by
  intro L
  induction L with
  | nil => intro acc f hf; cases hf
  | cons g T ih =>
    intro acc f hf hnd
    simp only [List.map_cons, List.nodup_cons] at hnd
    simp only [List.foldl_cons]
    rcases List.mem_cons.mp hf with hfg | hfT
    · subst hfg
      rw [snapFold_noTouch cm vid T _ f.id ?hno]
      case hno =>
        intro g2 hg2 hid
        exact hnd.1 (hid ▸ List.mem_map_of_mem Face.id hg2)
      cases hc : mapGet cm (colorKey vid f.id) with
      | none => rfl
      | some c => exact mapGet_mapSet_self acc f.id c
    · rw [ih _ f hfT hnd.2]
      cases hc : mapGet cm (colorKey vid f.id) with
      | none =>
        have hne : g.id ≠ f.id := by
          intro hid
          exact hnd.1 (hid ▸ List.mem_map_of_mem Face.id hfT)
        cases hcg : mapGet cm (colorKey vid g.id) with
        | none => rfl
        | some c => exact mapGet_mapSet_other acc g.id f.id c (fun h => hne h.symm)
      | some c => rfl

theorem delFold_none (vid : String) :
    ∀ (L : List Face) (cm : List (String × String)) (key : String),
      mapGet cm key = none →
      mapGet (L.foldl (fun m face => mapDelete m (colorKey vid face.id)) cm) key = none := by
  intro L
  induction L with
  | nil => intro cm key h; exact h
  | cons g T ih =>
    intro cm key h
    simp only [List.foldl_cons]
    exact ih _ key (mapGet_mapDelete_none cm _ key h)

theorem delFold_self (vid : String) :
    ∀ (L : List Face) (cm : List (String × String)),
      (cm.map Prod.fst).Nodup →
      ∀ f ∈ L,
        mapGet (L.foldl (fun m face => mapDelete m (colorKey vid face.id)) cm)
          (colorKey vid f.id) = none := by
  intro L
  induction L with
  | nil => intro cm _ f hf; cases hf
  | cons g T ih =>
    intro cm hnd f hf
    simp only [List.foldl_cons]
    rcases List.mem_cons.mp hf with hfg | hfT
    · subst hfg
      exact delFold_none vid T _ _ (mapGet_mapDelete_self_nodup cm _ hnd)
    · exact ih _ (mapDelete_keys_nodup cm _ hnd) f hfT

theorem restFold_noTouch (colors : List (String × String)) (vid : String) :
    ∀ (L : List Face) (m : List (String × String)) (key : String),
      (∀ g ∈ L, key ≠ colorKey vid g.id) →
      mapGet (L.foldl (fun m face =>
          match mapGet colors face.id with
          | some c => if c = "" then m else mapSet m (colorKey vid face.id) c
          | none => m) m) key = mapGet m key := by
  intro L
  induction L with
  | nil => intro m key _; rfl
  | cons g T ih =>
    intro m key hkey
    simp only [List.foldl_cons]
    rw [ih _ key (fun g2 hg2 => hkey g2 (List.mem_cons_of_mem g hg2))]
    cases hc : mapGet colors g.id with
    | none => rfl
    | some c =>
      by_cases hce : c = ""
      · simp [hce]
      · simp only [hce, if_false]
        exact mapGet_mapSet_other m _ key c (hkey g (List.mem_cons_self g T))

theorem restFold_lookup (colors : List (String × String)) (vid : String) :
    ∀ (L : List Face) (m : List (String × String)) (f : Face),
      f ∈ L → (L.map Face.id).Nodup →
      mapGet (L.foldl (fun m face =>
          match mapGet colors face.id with
          | some c => if c = "" then m else mapSet m (colorKey vid face.id) c
          | none => m) m) (colorKey vid f.id)
        = match mapGet colors f.id with
          | some c => if c = "" then mapGet m (colorKey vid f.id) else some c
          | none => mapGet m (colorKey vid f.id) := by
  intro L
  induction L with
  | nil => intro m f hf; cases hf
  | cons g T ih =>
    intro m f hf hnd
    simp only [List.map_cons, List.nodup_cons] at hnd
    simp only [List.foldl_cons]
    rcases List.mem_cons.mp hf with hfg | hfT
    · subst hfg
      rw [restFold_noTouch colors vid T _ _ ?hno]
      case hno =>
        intro g2 hg2 hid
        exact hnd.1 ((colorKey_inj vid hid) ▸ List.mem_map_of_mem Face.id hg2)
      cases hc : mapGet colors f.id with
      | none => rfl
      | some c =>
        by_cases hce : c = ""
        · simp [hce]
        · simp only [hce, if_false]
          exact mapGet_mapSet_self m _ c
    · rw [ih _ f hfT hnd.2]
      have hne : colorKey vid g.id ≠ colorKey vid f.id := by
        intro hid
        exact hnd.1 ((colorKey_inj vid hid) ▸ List.mem_map_of_mem Face.id hfT)
      cases hcg : mapGet colors g.id with
      | none => rfl
      | some c =>
        by_cases hce : c = ""
        · simp [hce]
        · simp only [hce, if_false]
          cases hcf : mapGet colors f.id with
          | none => exact mapGet_mapSet_other _ _ _ c (Ne.symm hne)
          | some c2 =>
            by_cases hc2 : c2 = ""
            · simp only [hc2, if_true]
              exact mapGet_mapSet_other _ _ _ c (Ne.symm hne)
            · simp only [hc2, if_false]

/-- C2: deleting a live voxel and restoring it from the returned snapshot
succeeds and reproduces a voxel under the same identifier with identical
position, vertices and faces (vertex-id lists, normal tags and cached
colors included), and leaves the color-map entries under the voxel's faces
exactly as before.  The hypotheses state that the voxel is live, that the
voxel-map keys and the face ids are duplicate-free (the JavaScript `Map`
and per-voxel invariants), and that each of its color-map entries is a
non-empty string matching the face's cached color (what `colorSpecificFace`
and `restoreVoxel` maintain; an empty string would be dropped by the
truthiness test in `restoreVoxel`). -/
theorem delete_restore_roundtrip
    (s : VoxelMesh) (vid : String) (V : Voxel)
    (hv : mapGet s.voxels vid = some V)
    (hvKeys : (s.voxels.map Prod.fst).Nodup)
    (hnd : (V.faces.map Face.id).Nodup)
    (hco : ∀ f ∈ V.faces, ∀ cc, mapGet s.colorMap (colorKey vid f.id) = some cc →
      cc = f.color ∧ cc ≠ "") :
    ∃ snap, (s.deleteVoxel vid).1 = some snap ∧
      ((s.deleteVoxel vid).2.restoreVoxel vid snap).1 = true ∧
      ∃ V', mapGet ((s.deleteVoxel vid).2.restoreVoxel vid snap).2.voxels vid = some V' ∧
        V'.id = vid ∧ V'.position = V.position ∧ V'.vertices = V.vertices ∧
        V'.faces = V.faces ∧
        ∀ f ∈ V.faces,
          mapGet ((s.deleteVoxel vid).2.restoreVoxel vid snap).2.colorMap
              (colorKey vid f.id)
            = mapGet s.colorMap (colorKey vid f.id) := by
  have hdel : s.deleteVoxel vid =
      (some ⟨V.position, V.vertices, V.faces,
        V.faces.foldl (fun acc face =>
          match mapGet s.colorMap (colorKey vid face.id) with
          | some c => mapSet acc face.id c
          | none => acc) []⟩,
       { s with voxels := mapDelete s.voxels vid,
                colorMap := V.faces.foldl
                  (fun m face => mapDelete m (colorKey vid face.id)) s.colorMap }) := by
    simp only [VoxelMesh.deleteVoxel, hv]
  have hnone : mapGet (mapDelete s.voxels vid) vid = none :=
    mapGet_mapDelete_self_nodup _ _ hvKeys
  have hsnapLookup : ∀ f ∈ V.faces,
      mapGet (V.faces.foldl (fun acc face =>
        match mapGet s.colorMap (colorKey vid face.id) with
        | some c => mapSet acc face.id c
        | none => acc) []) f.id = mapGet s.colorMap (colorKey vid f.id) := by
    intro f hf
    rw [snapFold_lookup s.colorMap vid V.faces [] f hf hnd]
    cases hc : mapGet s.colorMap (colorKey vid f.id) with
    | none => rfl
    | some c => rfl
  rw [hdel]
  refine ⟨_, rfl, ?_, ?_⟩
  · simp only [VoxelMesh.restoreVoxel, hnone, Option.isSome_none, Bool.false_eq_true,
      if_false]
  · simp only [VoxelMesh.restoreVoxel, hnone, Option.isSome_none, Bool.false_eq_true,
      if_false]
    refine ⟨_, mapGet_mapSet_self _ _ _, rfl, rfl, rfl, ?_, ?_⟩
    · show V.faces.map (fun face =>
        match mapGet (V.faces.foldl (fun acc face =>
          match mapGet s.colorMap (colorKey vid face.id) with
          | some c => mapSet acc face.id c
          | none => acc) []) face.id with
        | some c => if c = "" then face else { face with color := c }
        | none => face) = V.faces
      have hid : ∀ f ∈ V.faces, (fun face =>
          match mapGet (V.faces.foldl (fun acc face =>
            match mapGet s.colorMap (colorKey vid face.id) with
            | some c => mapSet acc face.id c
            | none => acc) []) face.id with
          | some c => if c = "" then face else { face with color := c }
          | none => face) f = f := by
        intro f hf
        simp only [hsnapLookup f hf]
        cases hc : mapGet s.colorMap (colorKey vid f.id) with
        | none => rfl
        | some c =>
          obtain ⟨hcol, hne⟩ := hco f hf c hc
          simp only [hne, if_false]
          subst hcol
          cases f
          rfl
      rw [List.map_congr_left hid]
      exact List.map_id' V.faces
    · intro f hf
      rw [restFold_lookup _ vid V.faces _ f hf hnd, hsnapLookup f hf]
      cases hc : mapGet s.colorMap (colorKey vid f.id) with
      | none =>
        exact delFold_none vid V.faces s.colorMap _ hc
      | some c =>
        obtain ⟨-, hne⟩ := hco f hf c hc
        simp only [hne, if_false]

/-- A store holding one voxel whose front face was recolored red. -/
def coloredStore : VoxelMesh :=
  ((VoxelMesh.init.addVoxel ⟨0, 0, 0⟩).2.colorSpecificFace "voxel_0" "face_2" "#ff0000").2

/-- The live voxel record of `coloredStore`. -/
def coloredVoxel : Voxel :=
  (mapGet coloredStore.voxels "voxel_0").getD ⟨"", ⟨0, 0, 0⟩, [], []⟩

/-- Witness for C2 at the concrete one-voxel store with a red front face. -/
theorem delete_restore_roundtrip_witness :
    mapGet coloredStore.voxels "voxel_0" = some coloredVoxel ∧
    (coloredStore.voxels.map Prod.fst).Nodup ∧
    (coloredVoxel.faces.map Face.id).Nodup ∧
    (∀ f ∈ coloredVoxel.faces, ∀ cc,
      mapGet coloredStore.colorMap (colorKey "voxel_0" f.id) = some cc →
        cc = f.color ∧ cc ≠ "") ∧
    (∃ snap, (coloredStore.deleteVoxel "voxel_0").1 = some snap ∧
      ((coloredStore.deleteVoxel "voxel_0").2.restoreVoxel "voxel_0" snap).1 = true ∧
      ∃ V', mapGet ((coloredStore.deleteVoxel "voxel_0").2.restoreVoxel
            "voxel_0" snap).2.voxels "voxel_0" = some V' ∧
        V'.id = "voxel_0" ∧ V'.position = coloredVoxel.position ∧
        V'.vertices = coloredVoxel.vertices ∧
        V'.faces = coloredVoxel.faces ∧
        ∀ f ∈ coloredVoxel.faces,
          mapGet ((coloredStore.deleteVoxel "voxel_0").2.restoreVoxel
              "voxel_0" snap).2.colorMap (colorKey "voxel_0" f.id)
            = mapGet coloredStore.colorMap (colorKey "voxel_0" f.id)) := by
  have hv : mapGet coloredStore.voxels "voxel_0" = some coloredVoxel := rfl
  have h1 : (coloredStore.voxels.map Prod.fst).Nodup := by decide
  have h2 : (coloredVoxel.faces.map Face.id).Nodup := by decide
  have h3all : coloredVoxel.faces.all (fun f =>
      match mapGet coloredStore.colorMap (colorKey "voxel_0" f.id) with
      | none => true
      | some cc => cc == f.color && !(cc == "")) = true := by decide
  have h3 : ∀ f ∈ coloredVoxel.faces, ∀ cc,
      mapGet coloredStore.colorMap (colorKey "voxel_0" f.id) = some cc →
        cc = f.color ∧ cc ≠ "" := by
    intro f hf cc hcc
    have hb := List.all_eq_true.mp h3all f hf
    rw [hcc] at hb
    simp only [Bool.and_eq_true, beq_iff_eq, Bool.not_eq_eq_eq_not, Bool.not_true,
      beq_eq_false_iff_ne] at hb
    exact hb
  exact ⟨hv, h1, h2, h3,
    delete_restore_roundtrip coloredStore "voxel_0" coloredVoxel hv h1 h2 h3⟩

end Boxel
